import Mathlib

/-!
# Universal Agent Quota Tracker — verification of the provider quota-resolution engine

A shallow embedding, in Lean 4, of the quota-normalization and fetch-protocol
logic of the `universal-agent-quota-tracker` VS Code extension:

* `src/providers/zai.ts` — the Z.AI limit-to-model mapping;
* `src/providers/antigravity.ts` — account-source discovery, token refresh,
  model-quota fetching with retry/fallback, model grouping and clamping;
* `src/providers/gemini-cli.ts` — credential handling, token refresh with
  write-back, the single-retry-on-auth-failure protocol and bucket parsing;
* `src/views/quotaTreeProvider.ts` — the per-model health thresholds.

Numbers are embedded as `ℚ` (JavaScript numbers at the precision relevant
here: every concrete value used below is exactly representable as an IEEE
double, so no rounding difference between `ℚ` and JS numbers arises) and
`Math.round` as `jsRound` below.  HTTP calls, the filesystem and the wall
clock are modelled by explicit oracles/environments; each fetch function
additionally returns a trace of the externally visible events (calls made,
sleeps performed, files written) so that retry/fallback protocols can be
stated as properties of the trace.  Constant identity fields of results
(`provider`, `displayName`, `shortName`) and the `lastUpdated` wall-clock
timestamp are omitted from the embedded result records, as no property here
depends on them.
-/

namespace UAQ

section

/- The Batteries `Rat` arithmetic operations are `@[irreducible]`, which
blocks `decide`-style evaluation of the embedded definitions at concrete
inputs; re-opening them is harmless for soundness (reducibility attributes
are invisible to the kernel). -/
set_option allowUnsafeReducibility true
attribute [local semireducible] Rat.add Rat.mul Rat.inv Rat.sub Rat.div Rat.neg

/-- JavaScript's `Math.round` on a (finite, non-negative-zero-irrelevant)
number: rounds half toward `+∞`, i.e. `⌊x + 1/2⌋`. -/
def jsRound (x : ℚ) : ℤ := ⌊x + 1/2⌋

/-- The `String.prototype.toLowerCase()` operation on the ASCII strings that occur here. -/
def strLower (s : String) : String := ⟨s.data.map Char.toLower⟩

/-- Tests whether `pat` occurs contiguously in the second list. -/
def listIsInfixOf [DecidableEq α] (pat : List α) : List α → Bool
  | [] => pat.isEmpty
  | c :: rest => pat.isPrefixOf (c :: rest) || listIsInfixOf pat rest

/-- JavaScript `a.includes(b)` on strings: `b` occurs contiguously in `a`. -/
def strIncludes (s pat : String) : Bool := listIsInfixOf pat.data s.data

/-- JavaScript truthiness of a `string | undefined` value: `undefined` and
`""` are falsy.  Used to embed `s || t` patterns on optional strings. -/
def jsStr : Option String → Option String
  | some s => if s = "" then none else some s
  | none => none

/-- JavaScript `a || b` on `string | undefined` values. -/
def jsStrOr (a : Option String) (b : String) : String :=
  match jsStr a with
  | some s => s
  | none => b

/-- From `src/types.ts`: `TrendDirection`. -/
inductive TrendDirection
  | up | down | stable
deriving DecidableEq, Repr

/-- From `src/types.ts`: `ProviderStatus`. -/
inductive ProviderStatus
  | ok | not_configured | auth_expired | error
deriving DecidableEq, Repr

/-- From `src/types.ts`: `HealthStatus`. -/
inductive HealthStatus
  | good | warning | critical | unknown
deriving DecidableEq, Repr

/-- From `src/types.ts`: `ModelQuota`.  `resetTime` is an epoch-milliseconds
timestamp (a JS `Date` that is valid). -/
structure ModelQuota where
  name : String
  displayName : Option String := none
  remainingPercent : ℤ
  usedPercent : ℤ
  resetTime : Option ℤ := none
  trend : Option TrendDirection := none
deriving DecidableEq, Repr

/-- From `src/types.ts`: `AccountQuota`. -/
structure AccountQuota where
  id : String
  name : String
  models : List ModelQuota
  overallHealth : HealthStatus
  subscriptionTier : Option String := none
  isForbidden : Option Bool := none
deriving DecidableEq, Repr

/-- From `src/types.ts`: `ProviderQuotaResult`, without the constant identity
fields (`provider`, `displayName`, `shortName`) and the `lastUpdated`
timestamp, on which no verified property depends. -/
structure ProviderResultModel where
  status : ProviderStatus
  accounts : List AccountQuota
  error : Option String := none
  hint : Option String := none
deriving DecidableEq, Repr

/-! ## Z.AI provider (`src/providers/zai.ts`) -/

/-- From `src/providers/zai.ts`: `ZaiLimit` — one entry of the quota response's
`data.limits` array. -/
structure ZaiLimit where
  type : String
  usage : ℚ
  currentValue : ℚ
  remaining : ℚ
  percentage : ℚ
  nextResetTime : Option ℤ := none
deriving DecidableEq, Repr

/-- From `src/providers/zai.ts` lines 77–100: the body of
`data.data.limits.map(limit => ...)` in `ZaiProvider.fetchQuota`:
`usedPercent = limit.percentage`, `remainingPercent = 100 - usedPercent`,
both rounded independently with `Math.round`. -/
def zaiLimitToModelQuota (l : ZaiLimit) : ModelQuota :=
  let usedPercent : ℚ := l.percentage
  let remainingPercent : ℚ := 100 - usedPercent
  let displayName : String :=
    if l.type = "TOKENS_LIMIT" then "Tokens"
    else if l.type = "TIME_LIMIT" then "Requests"
    else l.type
  { name := strLower l.type
    displayName := some displayName
    remainingPercent := jsRound remainingPercent
    usedPercent := jsRound usedPercent
    resetTime := l.nextResetTime }

/-! ## Gemini CLI provider (`src/providers/gemini-cli.ts`): bucket parsing -/

/-- From `gemini-cli.ts`: `QuotaBucket` of `RetrieveQuotaResponse`.  `resetTime`
is the already-parsed timestamp of the `resetTime` string field (`none` when
the field is absent). -/
structure QuotaBucket where
  modelId : String
  remainingFraction : ℚ
  resetTime : Option ℤ := none
deriving DecidableEq, Repr

/-- The `\w` class of JavaScript regexes: `[A-Za-z0-9_]`. -/
def isWordChar (c : Char) : Bool :=
  ('A' ≤ c && c ≤ 'Z') || ('a' ≤ c && c ≤ 'z') || ('0' ≤ c && c ≤ '9') || c = '_'

/-- The scan of `.replace(/\b\w/g, c => c.toUpperCase())`: uppercase every
word character that starts a word (is preceded by a non-word character or
the start of the string). -/
def capWordStarts : List Char → Bool → List Char
  | [], _ => []
  | c :: rest, prevIsWord =>
    (if isWordChar c && !prevIsWord then c.toUpper else c) :: capWordStarts rest (isWordChar c)

/-- From `gemini-cli.ts`: `formatModelName` — replace `-` by spaces, then
uppercase the first character of every word. -/
def formatModelName (modelId : String) : String :=
  let spaced := modelId.data.map (fun c => if c = '-' then ' ' else c)
  ⟨capWordStarts spaced false⟩

/-- From `gemini-cli.ts` lines 478–489: `GeminiCliProvider.parseQuotaBuckets`.
Note: the remaining fraction is *not* clamped here. -/
def geminiParseQuotaBuckets (buckets : List QuotaBucket) : List ModelQuota :=
  buckets.map (fun b =>
    let remainingPercent := jsRound (b.remainingFraction * 100)
    { name := b.modelId
      displayName := some (formatModelName b.modelId)
      remainingPercent := remainingPercent
      usedPercent := 100 - remainingPercent
      resetTime := b.resetTime })

/-! ## Health classification -/

/-- Modelled from the spec: `calculateOverallHealth` lives in
`src/utils/health.ts`, which is not among the available sources (only its
call sites and import are).  Per the spec's invariant section, health
classification is a pure function of an account's Model Quota list:
`critical` if any model's remaining percentage is `< 30`, else `warning` if
any is `< 70`, else `good`; `unknown` when the account has no models. -/
def calculateOverallHealth (models : List ModelQuota) : HealthStatus :=
  if models.isEmpty then .unknown
  else if models.any (fun m => m.remainingPercent < 30) then .critical
  else if models.any (fun m => m.remainingPercent < 70) then .warning
  else .good

/-- From `src/views/quotaTreeProvider.ts` lines 125–130
(`QuotaTreeItem.configureModel`): the per-model health icon thresholds. -/
def configureModelHealth (m : ModelQuota) : HealthStatus :=
  if m.remainingPercent ≥ 70 then .good
  else if m.remainingPercent ≥ 30 then .warning
  else .critical

/-! ## Antigravity provider (`src/providers/antigravity.ts`): normalization -/

/-- From `antigravity.ts`: `QuotaInfo`.  The raw `resetTime` is a
`string | null` that the code feeds to `new Date(...)`; it is embedded
already parsed: the outer `Option` is JS truthiness of the string, the
inner `Option` is validity of the resulting `Date` (its timestamp when
valid, `none` when `isNaN(d.getTime())`). -/
structure AgQuotaInfo where
  remainingFraction : Option ℚ := none
  resetTime : Option (Option ℤ) := none
deriving DecidableEq, Repr

/-- From `antigravity.ts`: one value of the `models` record of the
`fetchAvailableModels` response body. -/
structure AgModelInfo where
  displayName : Option String := none
  quotaInfo : Option AgQuotaInfo := none
deriving DecidableEq, Repr

/-- From `antigravity.ts` lines 115–120: `MODEL_GROUPS`. -/
def MODEL_GROUPS : List (String × List String) :=
  [("Gemini 3 Pro", ["gemini-3-pro-high", "gemini-3-pro"]),
   ("Gemini 3 Flash", ["gemini-3-flash"]),
   ("Gemini 3 Image", ["gemini-3-pro-image", "gemini-3-image"]),
   ("Claude / GPT", ["claude-sonnet-4-5-thinking", "claude", "gpt"])]

/-- State of one group during the aggregation loop of `fetchModelQuotas`
(`antigravity.ts` lines 394–399). -/
structure AgGroupState where
  remaining : ℤ
  resetTime : Option ℤ := none
  found : Bool
deriving DecidableEq, Repr

/-- From `antigravity.ts` lines 394–399: the initial `groups` record. -/
def agInitGroups : List (String × AgGroupState) :=
  [("Gemini 3 Pro", { remaining := 100, found := false }),
   ("Gemini 3 Flash", { remaining := 100, found := false }),
   ("Gemini 3 Image", { remaining := 100, found := false }),
   ("Claude / GPT", { remaining := 100, found := false })]

/-- From `antigravity.ts` lines 405–406: missing `remainingFraction` is
`?? 0`, the fraction is clamped to `[0,1]` and converted to a rounded
percentage. -/
def agRemainingPercent (remainingFraction : Option ℚ) : ℤ :=
  jsRound (min 1 (max 0 (remainingFraction.getD 0)) * 100)

/-- From `antigravity.ts` lines 408–417: match a model id / display name
against `MODEL_GROUPS` by case-insensitive substring inclusion, first
matching group wins. -/
def agMatchGroup (modelId : String) (displayName : Option String) : Option String :=
  let candidates := [strLower modelId, strLower (displayName.getD "")]
  (MODEL_GROUPS.find? (fun g =>
    g.2.any (fun pattern => candidates.any (fun c => strIncludes c (strLower pattern))))).map (·.1)

/-- From `antigravity.ts` lines 401–427: the body of the
`for (const [modelId, modelInfo] of Object.entries(data.models || {}))`
loop — one step of the group aggregation. -/
def agProcessModel (groups : List (String × AgGroupState)) (modelId : String)
    (modelInfo : AgModelInfo) : List (String × AgGroupState) :=
  match modelInfo.quotaInfo with
  | none => groups
  | some quotaInfo =>
    let remainingPercent := agRemainingPercent quotaInfo.remainingFraction
    let resetTime : Option ℤ :=
      match quotaInfo.resetTime with
      | some (some t) => some t
      | _ => none
    match agMatchGroup modelId modelInfo.displayName with
    | none => groups
    | some groupKey =>
      groups.map (fun g =>
        if g.1 = groupKey then
          (g.1,
           { found := true
             remaining := if remainingPercent < g.2.remaining then remainingPercent else g.2.remaining
             resetTime := if remainingPercent < g.2.remaining then resetTime else g.2.resetTime })
        else g)

/-- From `antigravity.ts` lines 393–438: group the raw models of a
successful `fetchAvailableModels` response and convert the groups that were
found into `ModelQuota`s (`usedPercent = 100 - remaining`). -/
def agNormalize (models : List (String × AgModelInfo)) : List ModelQuota :=
  let groups := models.foldl (fun gs m => agProcessModel gs m.1 m.2) agInitGroups
  (groups.filter (fun g => g.2.found)).map (fun g =>
    { name := g.1
      displayName := some g.1
      remainingPercent := g.2.remaining
      usedPercent := 100 - g.2.remaining
      resetTime := g.2.resetTime })

/-- From `antigravity.ts` lines 99–102: `QuotaResult`. -/
structure AgQuotaResult where
  models : List ModelQuota
  isForbidden : Bool
deriving DecidableEq, Repr

/-- From `antigravity.ts` lines 273–280: the `AccountQuota` pushed for a
successfully fetched account inside `fetchQuota` — a forbidden account is
classified `critical`, `isForbidden || undefined` drops a `false` flag, and
`subscriptionTier || undefined` drops `null` and the empty string. -/
def agMkAccount (email : String) (subscriptionTier : Option String)
    (quotaResult : AgQuotaResult) : AccountQuota :=
  { id := email
    name := email
    models := quotaResult.models
    overallHealth :=
      if quotaResult.isForbidden then .critical else calculateOverallHealth quotaResult.models
    subscriptionTier := jsStr subscriptionTier
    isForbidden := if quotaResult.isForbidden then some true else none }

/-! ## Antigravity provider: account sources, refresh and fetch orchestration -/

/-- From `antigravity.ts` lines 29–36: `OpencodeAccountV3` (the unused
`addedAt`/`lastUsed` bookkeeping fields are omitted).  `email` is optional
in the file format. -/
structure OpencodeAccountV3 where
  email : Option String := none
  refreshToken : String
  projectId : Option String := none
  managedProjectId : Option String := none
deriving DecidableEq, Repr

/-- From `antigravity.ts` line 46: the `source` discriminator of a
`ProxyAccount`. -/
inductive ProxySource
  | oauth | database | manual
deriving DecidableEq, Repr

/-- From `antigravity.ts` lines 44–50: `ProxyAccount`. -/
structure ProxyAccount where
  email : String
  source : ProxySource
  refreshToken : Option String := none
  dbPath : Option String := none
  apiKey : Option String := none
deriving DecidableEq, Repr

/-- From `antigravity.ts` lines 91–97: `AccountWithToken`. -/
structure AccountWithToken where
  email : String
  source : String
  accessToken : String
  projectId : Option String := none
  managedProjectId : Option String := none
deriving DecidableEq, Repr

/-- Environment of `AntigravityProvider.getAllAccountSources`: the parsed
account-storage files and the outcomes of the effectful calls it makes.
`opencodeAccounts` is `storage.accounts || []` of the first readable
opencode storage path (`[]` when none parses); `proxyAccounts` likewise for
the proxy store; `refreshOutcome rt` is the result of
`refreshToken(rt)` (`none` = refresh failed); `dbToken p` is the result of
`extractTokenFromDatabase(p)`. -/
structure AgSourcesEnv where
  opencodeAccounts : List OpencodeAccountV3
  proxyAccounts : List ProxyAccount
  refreshOutcome : String → Option String
  dbToken : String → Option String
  idePath : String
deriving Inhabited

/-- From `antigravity.ts` lines 165–177: the opencode-store pass of
`getAllAccountSources`, pushing onto the accumulated `accounts` array. -/
def agOpencodePass (env : AgSourcesEnv) (acc : List AccountWithToken) : List AccountWithToken :=
  env.opencodeAccounts.foldl (fun l a =>
    match env.refreshOutcome a.refreshToken with
    | some token =>
      l ++ [{ email := jsStrOr a.email "opencode-account"
              source := "opencode"
              accessToken := token
              projectId := a.projectId
              managedProjectId := a.managedProjectId }]
    | none => l) acc

/-- From `antigravity.ts` lines 179–200: one step of the proxy-store pass of
`getAllAccountSources`. -/
def agProxyStep (env : AgSourcesEnv) (l : List AccountWithToken) (a : ProxyAccount) :
    List AccountWithToken :=
  match a.source with
  | .oauth =>
    if (jsStr a.refreshToken).isSome then
      match env.refreshOutcome ((jsStr a.refreshToken).getD "") with
      | some token => l ++ [{ email := a.email, source := "proxy-oauth", accessToken := token }]
      | none => l
    else l
  | .database =>
    if (jsStr a.dbPath).isSome then
      match env.dbToken ((jsStr a.dbPath).getD "") with
      | some token => l ++ [{ email := a.email, source := "proxy-db", accessToken := token }]
      | none => l
    else l
  | .manual => l

/-- From `antigravity.ts` lines 202–212: the Antigravity-IDE database pass of
`getAllAccountSources`, with its guard that no `antigravity-ide` entry is
already present. -/
def agIdePass (env : AgSourcesEnv) (l : List AccountWithToken) : List AccountWithToken :=
  match env.dbToken env.idePath with
  | some ideToken =>
    if (l.find? (fun a => a.source = "antigravity-ide")).isSome then l
    else l ++ [{ email := "Antigravity IDE", source := "antigravity-ide", accessToken := ideToken }]
  | none => l

/-- From `antigravity.ts` lines 162–215: `AntigravityProvider.getAllAccountSources`. -/
def agGetAllAccountSources (env : AgSourcesEnv) : List AccountWithToken :=
  agIdePass env (env.proxyAccounts.foldl (agProxyStep env) (agOpencodePass env []))

/-- Accounts contributed by the opencode source class alone. -/
def agOpencodePart (env : AgSourcesEnv) : List AccountWithToken :=
  env.opencodeAccounts.filterMap (fun a =>
    (env.refreshOutcome a.refreshToken).map (fun token =>
      { email := jsStrOr a.email "opencode-account"
        source := "opencode"
        accessToken := token
        projectId := a.projectId
        managedProjectId := a.managedProjectId }))

/-- Accounts contributed by the proxy source class alone. -/
def agProxyPart (env : AgSourcesEnv) : List AccountWithToken :=
  env.proxyAccounts.filterMap (fun a =>
    match a.source with
    | .oauth =>
      if (jsStr a.refreshToken).isSome then
        (env.refreshOutcome ((jsStr a.refreshToken).getD "")).map (fun token =>
          { email := a.email, source := "proxy-oauth", accessToken := token })
      else none
    | .database =>
      if (jsStr a.dbPath).isSome then
        (env.dbToken ((jsStr a.dbPath).getD "")).map (fun token =>
          { email := a.email, source := "proxy-db", accessToken := token })
      else none
    | .manual => none)

/-- Accounts contributed by the Antigravity-IDE source class alone. -/
def agIdePart (env : AgSourcesEnv) : List AccountWithToken :=
  match env.dbToken env.idePath with
  | some ideToken => [{ email := "Antigravity IDE", source := "antigravity-ide", accessToken := ideToken }]
  | none => []

/-- Per-account fetch outcome inside `AntigravityProvider.fetchQuota`
(lines 267–288): either the per-account `try` body threw (`.error`), or it
produced the subscription tier resolved by `fetchProjectInfo` together with
the `QuotaResult` of `fetchModelQuotas`. -/
def agAccountOutcome (outcome : Except Unit (Option String × AgQuotaResult))
    (account : AccountWithToken) : AccountQuota :=
  match outcome with
  | .error _ =>
    { id := account.email, name := account.email, models := [], overallHealth := .unknown }
  | .ok (subscriptionTier, quotaResult) => agMkAccount account.email subscriptionTier quotaResult

/-- From `antigravity.ts` lines 264–289: the `for (const account of
accountSources)` loop of `fetchQuota`, with `oracle i` the outcome for the
`i`-th account. -/
def agFetchAccountsGo (oracle : Nat → Except Unit (Option String × AgQuotaResult)) :
    Nat → List AccountWithToken → List AccountQuota
  | _, [] => []
  | i, account :: rest => agAccountOutcome (oracle i) account :: agFetchAccountsGo oracle (i + 1) rest

/-- The account loop of `fetchQuota`, started at index 0. -/
def agFetchAccounts (sources : List AccountWithToken)
    (oracle : Nat → Except Unit (Option String × AgQuotaResult)) : List AccountQuota :=
  agFetchAccountsGo oracle 0 sources

/-- Modelled from the spec: `BaseQuotaProvider.createNotConfiguredResult`
lives in `src/providers/base.ts`, which is not among the available sources.
Per the spec's error taxonomy it produces a result with status
`not_configured`, no accounts, and the given remediation hint. -/
def createNotConfiguredResult (hint : String) : ProviderResultModel :=
  { status := .not_configured, accounts := [], hint := some hint }

/-- From `antigravity.ts` lines 256–302: `AntigravityProvider.fetchQuota`.
The embedded body never throws, so the outer `catch`-to-`createErrorResult`
arm is unreachable here and is not modelled. -/
def agFetchQuota (env : AgSourcesEnv)
    (oracle : Nat → Except Unit (Option String × AgQuotaResult)) : ProviderResultModel :=
  let accountSources := agGetAllAccountSources env
  if accountSources.isEmpty then
    createNotConfiguredResult "Run 'opencode auth login' or install Antigravity IDE"
  else
    { status := .ok, accounts := agFetchAccounts accountSources oracle }

/-- From `antigravity.ts` lines 304–322: `AntigravityProvider.refreshToken`.
Its effect is fully described by the token-endpoint outcome (`none` for a
non-ok response or a thrown fetch / JSON-parse error, `some` the
`access_token` field otherwise); it performs no filesystem write, which the
empty second component records (cf. the Gemini CLI refresh below, which
returns its write-back in the same position). -/
def agRefreshToken (httpOutcome : Option String) : Option String × List (String × String) :=
  match httpOutcome with
  | some accessToken => (some accessToken, [])
  | none => (none, [])

/-! ## Antigravity provider: `fetchModelQuotas` retry / fallback protocol -/

/-- From `antigravity.ts` lines 81–82. -/
def MAX_RETRIES : Nat := 3

/-- From `antigravity.ts` lines 81–82. -/
def INITIAL_RETRY_DELAY_MS : Nat := 1000

/-- Outcome of one `fetch` of `:fetchAvailableModels` (`antigravity.ts`
lines 364–389): the request or the `response.json()` parse threw (`exn`), or
the response arrived non-ok with the given status code, or it was ok and
parsed, with `models` the optional `models` record (`data.models || {}`). -/
inductive AgCallOutcome
  | exn
  | status (code : Nat)
  | ok (models : Option (List (String × AgModelInfo)))

/-- Externally visible events of `fetchModelQuotas`: an attempt of endpoint
`e` (0 = `CLOUD_CODE_BASE_URL`, 1 = `CLOUD_CODE_FALLBACK_BASE_URL`), and a
backoff sleep. -/
inductive AgEvent
  | call (endpoint attempt : Nat)
  | sleepMs (ms : Nat)
deriving DecidableEq, Repr

/-- From `antigravity.ts` lines 362–450: the `for (let attempt = 1; attempt
<= MAX_RETRIES; attempt++)` loop over one endpoint `e`, with `o attempt` the
outcome of that attempt.  Returns `some` when the whole function returns
from inside the loop (403-forbidden short-circuit or a parsed response) and
`none` when the endpoint is exhausted (`break` after the last attempt). -/
def agEndpointLoop (o : Nat → AgCallOutcome) (e : Nat) :
    Nat → Nat → Option AgQuotaResult × List AgEvent
  | _, 0 => (none, [])
  | attempt, fuel + 1 =>
    match o attempt with
    | .ok models =>
      (some { models := agNormalize (models.getD []), isForbidden := false }, [.call e attempt])
    | .status code =>
      if code = 403 then (some { models := [], isForbidden := true }, [.call e attempt])
      else if attempt < MAX_RETRIES then
        let next := agEndpointLoop o e (attempt + 1) fuel
        (next.1, .call e attempt :: .sleepMs (INITIAL_RETRY_DELAY_MS * attempt) :: next.2)
      else (none, [.call e attempt])
    | .exn =>
      if attempt < MAX_RETRIES then
        let next := agEndpointLoop o e (attempt + 1) fuel
        (next.1, .call e attempt :: .sleepMs (INITIAL_RETRY_DELAY_MS * attempt) :: next.2)
      else (none, [.call e attempt])

/-- From `antigravity.ts` lines 358–453: `AntigravityProvider.fetchModelQuotas`
— iterate the endpoints `[primary, fallback]` in order, each with the
attempt loop, returning the empty non-forbidden result when both are
exhausted.  `o e attempt` is the outcome of attempt number `attempt`
(1-based) against endpoint `e`. -/
def agFetchModelQuotas (o : Nat → Nat → AgCallOutcome) : AgQuotaResult × List AgEvent :=
  match agEndpointLoop (o 0) 0 1 MAX_RETRIES with
  | (some r, t0) => (r, t0)
  | (none, t0) =>
    match agEndpointLoop (o 1) 1 1 MAX_RETRIES with
    | (some r, t1) => (r, t0 ++ t1)
    | (none, t1) => ({ models := [], isForbidden := false }, t0 ++ t1)

/-- The call events of a trace, as `(endpoint, attempt)` pairs. -/
def agCalls (trace : List AgEvent) : List (Nat × Nat) :=
  trace.filterMap (fun ev =>
    match ev with
    | .call e a => some (e, a)
    | .sleepMs _ => none)

/-! ## Gemini CLI provider: refresh, project id, quota and the retry-once protocol -/

/-- Modelled from the spec: `BaseQuotaProvider.createAuthExpiredResult`
lives in `src/providers/base.ts`, which is not among the available sources.
Per the spec's error taxonomy it produces a result with status
`auth_expired`, no accounts, and the given remediation hint. -/
def createAuthExpiredResult (hint : String) : ProviderResultModel :=
  { status := .auth_expired, accounts := [], hint := some hint }

/-- Modelled from the spec: `BaseQuotaProvider.createErrorResult` lives in
`src/providers/base.ts`, which is not among the available sources.  Per the
spec's error taxonomy it produces a result with status `error`, no
accounts, the raw message, and an optional remediation hint. -/
def createErrorResult (error : String) (hint : Option String := none) : ProviderResultModel :=
  { status := .error, accounts := [], error := some error, hint := hint }

/-- From `gemini-cli.ts`: `GeminiOAuthCreds` (the optional
`client_id`/`client_secret` overrides only select constants of the token
request and are omitted).  `expiry_date` is `none` when the field is absent
or not a number. -/
structure GemCreds where
  access_token : String
  refresh_token : String
  expiry_date : Option ℤ := none
deriving DecidableEq, Repr

/-- Body of a successful Google token-endpoint response
(`gemini-cli.ts` lines 416–422). -/
structure TokenResponse where
  access_token : String
  expires_in : ℤ
deriving DecidableEq, Repr

/-- The Gemini CLI credential file path (`~/.gemini/oauth_creds.json`,
`getCredentialPath`). -/
def GEMINI_CRED_PATH : String := "~/.gemini/oauth_creds.json"

/-- From `gemini-cli.ts` lines 398–430: `GeminiCliProvider.refreshToken`.
`httpOutcome` is `none` for a non-ok response or a thrown fetch / parse
error, otherwise the parsed body.  On success the function writes the
updated credentials (new `access_token`, `expiry_date = Date.now() +
expires_in * 1000`) back to the credential file before returning the token;
the second component lists the file writes performed.  (A hypothetical
failure of the write itself is not modelled: the write is assumed to
succeed.) -/
def gemRefreshToken (creds : GemCreds) (httpOutcome : Option TokenResponse) (now : ℤ) :
    Option String × List (String × GemCreds) :=
  match httpOutcome with
  | none => (none, [])
  | some data =>
    let updatedCreds : GemCreds :=
      { creds with
        access_token := data.access_token
        expiry_date := some (now + data.expires_in * 1000) }
    (some data.access_token, [(GEMINI_CRED_PATH, updatedCreds)])

/-- Outcome of one Gemini CLI API call: HTTP 401/403 (`authFail`), another
non-ok response (`httpFail`), a thrown fetch / parse error (`exn`), or an ok
parsed body. -/
inductive GemCallOutcome (α : Type)
  | authFail
  | httpFail
  | exn
  | ok (a : α)

/-- Errors propagating out of the Gemini CLI fetch body: `AuthError`, or any
other thrown error with its message. -/
inductive GemError
  | auth
  | other (msg : String)
deriving DecidableEq, Repr

/-- From `gemini-cli.ts` lines 432–456: `GeminiCliProvider.getProjectId` as a
function of its call outcome — 401/403 throws `AuthError`, another non-ok
response returns `null`, an ok body yields `cloudaicompanionProject || null`,
and a thrown fetch error propagates as a non-auth error. -/
def gemGetProjectId (outcome : GemCallOutcome (Option String)) : Except GemError (Option String) :=
  match outcome with
  | .authFail => .error .auth
  | .httpFail => .ok none
  | .exn => .error (.other "fetch error")
  | .ok project => .ok (jsStr project)

/-- From `gemini-cli.ts` lines 458–476: `GeminiCliProvider.getQuota` as a
function of its call outcome — 401/403 throws `AuthError`, another non-ok
response returns `[]`, an ok body yields `buckets || []`. -/
def gemGetQuota (outcome : GemCallOutcome (List QuotaBucket)) : Except GemError (List QuotaBucket) :=
  match outcome with
  | .authFail => .error .auth
  | .httpFail => .ok []
  | .exn => .error (.other "fetch error")
  | .ok buckets => .ok buckets

/-- Numbers of effectful calls performed during one Gemini CLI fetch. -/
structure GemTrace where
  refreshes : Nat
  projectIdCalls : Nat
  quotaCalls : Nat
deriving DecidableEq, Repr

/-- Environment of one `GeminiCliProvider.fetchQuota` run: whether a
`GEMINI_API_KEY`/`GOOGLE_API_KEY` environment variable is set, the parsed
credential file (or `none`), the wall clock, and the outcome of the `n`-th
token-refresh / `loadCodeAssist` / `retrieveUserQuota` call (each numbered
separately from 0 in order of occurrence). -/
structure GemEnv where
  apiKeyMode : Bool
  creds : Option GemCreds
  now : ℤ
  refreshHttp : Nat → Option TokenResponse
  projectIdCall : Nat → GemCallOutcome (Option String)
  quotaCall : Nat → GemCallOutcome (List QuotaBucket)

/-- From `gemini-cli.ts` line 337: `!creds.expiry_date || Date.now() >=
creds.expiry_date` — a missing (or invalid, or zero) expiry is treated as
expired. -/
def gemNeedsRefresh (creds : GemCreds) (now : ℤ) : Bool :=
  match creds.expiry_date with
  | none => true
  | some e => if e = 0 then true else decide (now ≥ e)

/-- From `gemini-cli.ts` lines 346–353 and 360–364: one pass of the body of
`executeWithRetry` — resolve the project id (a `null` project id is thrown
as a non-auth error) and, when it is present, fetch the quota.  `t` is the
call trace accumulated so far: the oracle indices of the two calls are the
numbers of such calls already made. -/
def gemFetchSequence (env : GemEnv) (t : GemTrace) (nullPidMsg : String) :
    Except GemError (List QuotaBucket) × GemTrace :=
  match gemGetProjectId (env.projectIdCall t.projectIdCalls) with
  | .error e => (.error e, { t with projectIdCalls := t.projectIdCalls + 1 })
  | .ok none => (.error (.other nullPidMsg), { t with projectIdCalls := t.projectIdCalls + 1 })
  | .ok (some _) =>
    match gemGetQuota (env.quotaCall t.quotaCalls) with
    | .error e =>
      (.error e, { t with projectIdCalls := t.projectIdCalls + 1, quotaCalls := t.quotaCalls + 1 })
    | .ok buckets =>
      (.ok buckets,
       { t with projectIdCalls := t.projectIdCalls + 1, quotaCalls := t.quotaCalls + 1 })

/-- From `gemini-cli.ts` lines 345–370: the `executeWithRetry` helper —
resolve the project id and fetch the quota; on an `AuthError` from either
call, perform exactly one token refresh and, if it succeeds, retry the
project-id + quota sequence once, letting any failure of the retry
propagate; if the refresh fails, throw `AuthError`.  `initRefreshes` counts
refreshes already performed before entry (so oracle indices line up). -/
def gemExecuteWithRetry (env : GemEnv) (creds : GemCreds) (initRefreshes : Nat) :
    Except GemError (List QuotaBucket) × GemTrace :=
  match gemFetchSequence env ⟨initRefreshes, 0, 0⟩ "Failed to get project ID" with
  | (.error .auth, t) =>
    match gemRefreshToken creds (env.refreshHttp initRefreshes) env.now with
    | (none, _) => (.error .auth, { t with refreshes := t.refreshes + 1 })
    | (some _, _) =>
      gemFetchSequence env { t with refreshes := t.refreshes + 1 }
        "Failed to get project ID after retry"
  | other => other

/-- From `gemini-cli.ts` lines 372–395: turn the outcome of
`executeWithRetry` into the provider result — parse the buckets on success,
map `AuthError` to `auth_expired` and anything else to `error`. -/
def gemFinish : Except GemError (List QuotaBucket) × GemTrace → ProviderResultModel × GemTrace
  | (.ok buckets, t) =>
    let models := geminiParseQuotaBuckets buckets
    ({ status := .ok,
       accounts := [{ id := "default", name := "Gemini CLI", models := models,
                      overallHealth := calculateOverallHealth models }] }, t)
  | (.error .auth, t) => (createAuthExpiredResult "Run 'gemini' to re-authenticate", t)
  | (.error (.other msg), t) => (createErrorResult msg, t)

/-- From `gemini-cli.ts` lines 303–396: `GeminiCliProvider.fetchQuota` —
API-key mode short-circuit, missing credentials, the expiry-guarded initial
refresh (failure of which is `auth_expired`), then `executeWithRetry`. -/
def gemFetchQuota (env : GemEnv) : ProviderResultModel × GemTrace :=
  if env.apiKeyMode then
    ({ status := .ok
       accounts := [{ id := "api-key", name := "API Key Mode"
                      models := [{ name := "api-key", displayName := some "API Key (no quota data)"
                                   remainingPercent := 100, usedPercent := 0 }]
                      overallHealth := .unknown }]
       hint := some "API key mode - quota data unavailable" }, ⟨0, 0, 0⟩)
  else
    match env.creds with
    | none => (createNotConfiguredResult "Run 'gemini' to authenticate", ⟨0, 0, 0⟩)
    | some creds =>
      if gemNeedsRefresh creds env.now then
        match gemRefreshToken creds (env.refreshHttp 0) env.now with
        | (none, _) => (createAuthExpiredResult "Run 'gemini' to re-authenticate", ⟨1, 0, 0⟩)
        | (some _, _) => gemFinish (gemExecuteWithRetry env creds 1)
      else gemFinish (gemExecuteWithRetry env creds 0)

/-- Application of a list of recorded file writes to a filesystem (a map
from path to content), in order. -/
def applyWrites {α : Type} (writes : List (String × α)) (fs : String → Option α) :
    String → Option α :=
  writes.foldl (fun f w => fun p => if p = w.1 then some w.2 else f p) fs

/-! # Supporting lemmas -/

theorem jsRound_nonneg {x : ℚ} (h : 0 ≤ x) : 0 ≤ jsRound x := by
  rw [jsRound, Int.le_floor]
  push_cast
  linarith

theorem jsRound_le {x : ℚ} {n : ℤ} (h : x ≤ (n : ℚ)) : jsRound x ≤ n := by
  have hlt : jsRound x < n + 1 := by
    rw [jsRound, Int.floor_lt]
    push_cast
    linarith
  omega

theorem agRemainingPercent_bounds (f : Option ℚ) :
    0 ≤ agRemainingPercent f ∧ agRemainingPercent f ≤ 100 := by
  constructor
  · apply jsRound_nonneg
    have h0 : (0 : ℚ) ≤ min 1 (max 0 (f.getD 0)) := le_min (by norm_num) (le_max_left 0 _)
    nlinarith
  · apply jsRound_le
    have h1 : min 1 (max 0 (f.getD 0)) ≤ 1 := min_le_left _ _
    have h0 : (0 : ℚ) ≤ min 1 (max 0 (f.getD 0)) := le_min (by norm_num) (le_max_left 0 _)
    push_cast
    nlinarith

set_option linter.unusedTactic false in
theorem jsRound_split {p : ℚ} (h : Int.fract p ≠ 1/2) :
    jsRound p + jsRound (100 - p) = 100 := by
  have hp : (⌊p⌋ : ℚ) + Int.fract p = p := Int.floor_add_fract p
  have hf0 : 0 ≤ Int.fract p := Int.fract_nonneg p
  have hf1 : Int.fract p < 1 := Int.fract_lt_one p
  rcases lt_or_gt_of_ne h with hlt | hgt
  · have h1 : jsRound p = ⌊p⌋ := by
      rw [jsRound, Int.floor_eq_iff]
      constructor <;> push_cast <;> linarith
    have h2 : jsRound (100 - p) = 100 - ⌊p⌋ := by
      rw [jsRound, Int.floor_eq_iff]
      constructor <;> push_cast <;> linarith
    omega
  · have h1 : jsRound p = ⌊p⌋ + 1 := by
      rw [jsRound, Int.floor_eq_iff]
      constructor <;> push_cast <;> linarith
    have h2 : jsRound (100 - p) = 99 - ⌊p⌋ := by
      rw [jsRound, Int.floor_eq_iff]
      constructor <;> push_cast <;> linarith
    omega

theorem agProcessModel_bounds {groups : List (String × AgGroupState)} {modelId : String}
    {modelInfo : AgModelInfo}
    (h : ∀ g ∈ groups, 0 ≤ g.2.remaining ∧ g.2.remaining ≤ 100) :
    ∀ g ∈ agProcessModel groups modelId modelInfo, 0 ≤ g.2.remaining ∧ g.2.remaining ≤ 100 := by
  intro g hg
  unfold agProcessModel at hg
  rcases hinfo : modelInfo.quotaInfo with _ | qi
  · rw [hinfo] at hg
    exact h g hg
  · rw [hinfo] at hg
    rcases hmatch : agMatchGroup modelId modelInfo.displayName with _ | key
    · rw [hmatch] at hg
      exact h g hg
    · rw [hmatch] at hg
      simp only [List.mem_map] at hg
      obtain ⟨g0, hg0, rfl⟩ := hg
      by_cases hk : g0.1 = key
      · simp only [hk, if_true]
        split
        · exact ⟨(agRemainingPercent_bounds qi.remainingFraction).1,
            (agRemainingPercent_bounds qi.remainingFraction).2⟩
        · exact h g0 hg0
      · simp only [hk, if_false]
        exact h g0 hg0

theorem agFoldGroups_bounds (models : List (String × AgModelInfo)) :
    ∀ g ∈ models.foldl (fun gs m => agProcessModel gs m.1 m.2) agInitGroups,
      0 ≤ g.2.remaining ∧ g.2.remaining ≤ 100 := by
  suffices h : ∀ (ms : List (String × AgModelInfo)) (init : List (String × AgGroupState)),
      (∀ g ∈ init, 0 ≤ g.2.remaining ∧ g.2.remaining ≤ 100) →
      ∀ g ∈ ms.foldl (fun gs m => agProcessModel gs m.1 m.2) init,
        0 ≤ g.2.remaining ∧ g.2.remaining ≤ 100 by
    exact h models agInitGroups (by decide)
  intro ms
  induction ms with
  | nil => intro init hinit; simpa using hinit
  | cons m rest ih =>
    intro init hinit
    exact ih _ (agProcessModel_bounds hinit)

/-! # Claims -/

/-- C1 (amended): every `ModelQuota` produced by the Antigravity group
conversion and by Gemini CLI bucket parsing satisfies
`remainingPercent + usedPercent = 100` exactly; for the Z.AI limit mapping
the invariant holds whenever the reported used percentage is not exactly
half-way between two integers (because `zai.ts` rounds the two fields
independently). -/
theorem C1_remaining_plus_used :
    (∀ models m, m ∈ agNormalize models → m.remainingPercent + m.usedPercent = 100)
    ∧ (∀ buckets m, m ∈ geminiParseQuotaBuckets buckets → m.remainingPercent + m.usedPercent = 100)
    ∧ (∀ l : ZaiLimit, Int.fract l.percentage ≠ 1/2 →
        (zaiLimitToModelQuota l).remainingPercent + (zaiLimitToModelQuota l).usedPercent = 100) := by
  refine ⟨?_, ?_, ?_⟩
  · intro models m hm
    unfold agNormalize at hm
    simp only [List.mem_map] at hm
    obtain ⟨g, _, rfl⟩ := hm
    dsimp only
    omega
  · intro buckets m hm
    simp only [geminiParseQuotaBuckets, List.mem_map] at hm
    obtain ⟨b, _, rfl⟩ := hm
    dsimp only
    omega
  · intro l h
    have hs := jsRound_split h
    simp only [zaiLimitToModelQuota]
    omega

/-- Witness for C1 at concrete inputs: an Antigravity group at fraction 1/4,
a Gemini bucket at fraction 1/4, and a Z.AI limit at used percentage 33. -/
theorem C1_remaining_plus_used_witness :
    (({ name := "Gemini 3 Pro", displayName := some "Gemini 3 Pro",
        remainingPercent := 25, usedPercent := 75 } : ModelQuota).remainingPercent +
      ({ name := "Gemini 3 Pro", displayName := some "Gemini 3 Pro",
         remainingPercent := 25, usedPercent := 75 } : ModelQuota).usedPercent = 100)
    ∧ (({ name := "m", displayName := some "M", remainingPercent := 25,
          usedPercent := 75 } : ModelQuota).remainingPercent +
        ({ name := "m", displayName := some "M", remainingPercent := 25,
           usedPercent := 75 } : ModelQuota).usedPercent = 100)
    ∧ ((zaiLimitToModelQuota
            { type := "TOKENS_LIMIT", usage := 0, currentValue := 0,
              remaining := 0, percentage := 33 }).remainingPercent +
        (zaiLimitToModelQuota
            { type := "TOKENS_LIMIT", usage := 0, currentValue := 0,
              remaining := 0, percentage := 33 }).usedPercent = 100) :=
  ⟨C1_remaining_plus_used.1
      [("gemini-3-pro", { quotaInfo := some { remainingFraction := some (1/4) } })] _ (by decide),
   C1_remaining_plus_used.2.1 [{ modelId := "m", remainingFraction := 1/4 }] _ (by decide),
   C1_remaining_plus_used.2.2 _ (by decide)⟩

/-- Counterexample to C1 as stated: a Z.AI limit whose API-reported used
percentage is `0.5` maps to `usedPercent = 1` and `remainingPercent = 100`,
whose sum is 101, not 100. -/
theorem C1_counterexample :
    (zaiLimitToModelQuota
        { type := "TOKENS_LIMIT", usage := 0, currentValue := 0,
          remaining := 0, percentage := 1/2 }).remainingPercent = 100
    ∧ (zaiLimitToModelQuota
        { type := "TOKENS_LIMIT", usage := 0, currentValue := 0,
          remaining := 0, percentage := 1/2 }).usedPercent = 1
    ∧ ¬((zaiLimitToModelQuota
          { type := "TOKENS_LIMIT", usage := 0, currentValue := 0,
            remaining := 0, percentage := 1/2 }).remainingPercent +
        (zaiLimitToModelQuota
          { type := "TOKENS_LIMIT", usage := 0, currentValue := 0,
            remaining := 0, percentage := 1/2 }).usedPercent = 100) := by
  refine ⟨by decide, by decide, by decide⟩

/-- C2 (amended): the Antigravity normalizer clamps — a missing fraction is
treated as fully consumed (`remainingPercent = 0`) and every computed
remaining percentage lies in `[0, 100]`, as does every percentage in its
output; Gemini CLI bucket parsing, by contrast, does not clamp (see the
counterexample). -/
theorem C2_clamping :
    (∀ f : Option ℚ, 0 ≤ agRemainingPercent f ∧ agRemainingPercent f ≤ 100)
    ∧ agRemainingPercent none = 0
    ∧ (∀ models m, m ∈ agNormalize models →
        0 ≤ m.remainingPercent ∧ m.remainingPercent ≤ 100) := by
  refine ⟨agRemainingPercent_bounds, by decide, ?_⟩
  intro models m hm
  unfold agNormalize at hm
  simp only [List.mem_map] at hm
  obtain ⟨g, hg, rfl⟩ := hm
  exact agFoldGroups_bounds models g (List.mem_of_mem_filter hg)

/-- Witness for C2 at concrete inputs: an out-of-range fraction `3/2` and a
concrete normalized output. -/
theorem C2_clamping_witness :
    (0 ≤ agRemainingPercent (some (3/2)) ∧ agRemainingPercent (some (3/2)) ≤ 100)
    ∧ (0 ≤ ({ name := "Gemini 3 Pro", displayName := some "Gemini 3 Pro",
               remainingPercent := 25, usedPercent := 75 } : ModelQuota).remainingPercent
       ∧ ({ name := "Gemini 3 Pro", displayName := some "Gemini 3 Pro",
            remainingPercent := 25, usedPercent := 75 } : ModelQuota).remainingPercent ≤ 100) :=
  ⟨C2_clamping.1 (some (3/2)),
   C2_clamping.2.2
     [("gemini-3-pro", { quotaInfo := some { remainingFraction := some (1/4) } })] _ (by decide)⟩

/-- Counterexample to C2 as stated: Gemini CLI bucket parsing does not clamp
— a raw remaining fraction of `2` yields `remainingPercent = 200 > 100`, and
a fraction of `-1/2` yields `remainingPercent = -50 < 0`. -/
theorem C2_counterexample :
    (geminiParseQuotaBuckets [{ modelId := "m", remainingFraction := 2 }]).map
        (fun m => m.remainingPercent) = [200]
    ∧ (geminiParseQuotaBuckets [{ modelId := "m", remainingFraction := -1/2 }]).map
        (fun m => m.remainingPercent) = [-50] := by
  refine ⟨by decide, by decide⟩

/-- C4 (amended): for every account whose health is computed by
`calculateOverallHealth` — every Antigravity account and the Gemini CLI
OAuth-mode account — the aggregate health classification is a pure function
of the quota result: `critical` whenever the account is forbidden;
otherwise `unknown` exactly when the model list is empty, else `critical`
if any model's remaining percentage is below 30, else `warning` if any is
below 70, else `good`.  The Gemini CLI API-key-mode account is the one
exception (see the counterexample): it hard-codes `unknown` health despite
a nonempty synthetic model list.  (`calculateOverallHealth` is modelled
from the spec, as `src/utils/health.ts` is not among the sources.) -/
theorem C4_health_classification :
    (∀ (email : String) (tier : Option String) (qr : AgQuotaResult),
      ((agMkAccount email tier qr).overallHealth = .unknown ↔
        (qr.models = [] ∧ qr.isForbidden = false))
      ∧ (qr.isForbidden = true → (agMkAccount email tier qr).overallHealth = .critical)
      ∧ (qr.isForbidden = false →
          (agMkAccount email tier qr).overallHealth =
            (if qr.models.isEmpty then .unknown
             else if qr.models.any (fun m => m.remainingPercent < 30) then .critical
             else if qr.models.any (fun m => m.remainingPercent < 70) then .warning
             else .good)))
    ∧ (∀ (buckets : List QuotaBucket) (t : GemTrace),
        (gemFinish (.ok buckets, t)).1.accounts =
          [{ id := "default", name := "Gemini CLI",
             models := geminiParseQuotaBuckets buckets,
             overallHealth := calculateOverallHealth (geminiParseQuotaBuckets buckets) }]) := by
  constructor
  · intro email tier qr
    obtain ⟨models, forb⟩ := qr
    cases forb <;>
      simp only [agMkAccount, calculateOverallHealth, Bool.true_eq_false, Bool.false_eq_true,
        if_true, if_false, and_true, and_false, iff_false] <;>
      split_ifs <;>
      simp_all [List.isEmpty_iff]
  · intro buckets t
    rfl

/-- Witness for C4 at a concrete input: a forbidden account with no models
is critical, a non-forbidden account with a 25%-remaining model is
critical, and the Gemini OAuth-mode account over one bucket carries the
pure classification of its parsed models. -/
theorem C4_health_classification_witness :
    ((agMkAccount "a@b.c" none { models := [], isForbidden := true }).overallHealth = .critical)
    ∧ ((agMkAccount "a@b.c" none
          { models := [{ name := "m", remainingPercent := 25, usedPercent := 75 }],
            isForbidden := false }).overallHealth =
        (if ([{ name := "m", remainingPercent := 25, usedPercent := 75 }] :
              List ModelQuota).isEmpty then HealthStatus.unknown
         else if ([{ name := "m", remainingPercent := 25, usedPercent := 75 }] :
              List ModelQuota).any (fun m => m.remainingPercent < 30) then .critical
         else if ([{ name := "m", remainingPercent := 25, usedPercent := 75 }] :
              List ModelQuota).any (fun m => m.remainingPercent < 70) then .warning
         else .good))
    ∧ ((gemFinish (.ok [{ modelId := "gemini-3-pro", remainingFraction := 1/4 }],
          ⟨0, 1, 1⟩)).1.accounts =
        [{ id := "default", name := "Gemini CLI",
           models := geminiParseQuotaBuckets
             [{ modelId := "gemini-3-pro", remainingFraction := 1/4 }],
           overallHealth := calculateOverallHealth (geminiParseQuotaBuckets
             [{ modelId := "gemini-3-pro", remainingFraction := 1/4 }]) }]) :=
  ⟨(C4_health_classification.1 "a@b.c" none { models := [], isForbidden := true }).2.1 rfl,
   (C4_health_classification.1 "a@b.c" none
      { models := [{ name := "m", remainingPercent := 25, usedPercent := 75 }],
        isForbidden := false }).2.2 rfl,
   C4_health_classification.2 [{ modelId := "gemini-3-pro", remainingFraction := 1/4 }] ⟨0, 1, 1⟩⟩

/-- Counterexample to C4 as stated: the Gemini CLI API-key-mode account
(`gemini-cli.ts` lines 305–327) has a nonempty model list (one synthetic
model at 100% remaining) and no forbidden flag, yet its health is the
hard-coded `unknown` — where the claim's rule would classify it `good`. -/
theorem C4_counterexample :
    ((gemFetchQuota
        { apiKeyMode := true, creds := none, now := 0, refreshHttp := fun _ => none,
          projectIdCall := fun _ => .exn, quotaCall := fun _ => .exn }).1.accounts.map
        (fun a => (a.models.length, a.isForbidden, a.overallHealth))) =
      [(1, none, HealthStatus.unknown)]
    ∧ ((gemFetchQuota
        { apiKeyMode := true, creds := none, now := 0, refreshHttp := fun _ => none,
          projectIdCall := fun _ => .exn, quotaCall := fun _ => .exn }).1.accounts.map
        (fun a => calculateOverallHealth a.models)) = [HealthStatus.good] := by
  refine ⟨by decide, by decide⟩

/-- C5: a 403 on the Antigravity quota call short-circuits — the very first
attempt returning status 403 ends `fetchModelQuotas` immediately (one call,
no retry, no fallback endpoint, no backoff sleep), and the resulting account
is recorded forbidden with an empty model list and `critical` health. -/
theorem C5_forbidden_short_circuit :
    ∀ (o : Nat → Nat → AgCallOutcome),
      (o 0 1 = .status 403 →
        agFetchModelQuotas o = ({ models := [], isForbidden := true }, [.call 0 1]))
      ∧ (o 0 1 = .exn → o 0 2 = .status 403 →
        agFetchModelQuotas o =
          ({ models := [], isForbidden := true }, [.call 0 1, .sleepMs 1000, .call 0 2]))
      ∧ ∀ (email : String) (tier : Option String),
          agMkAccount email tier { models := [], isForbidden := true } =
            { id := email, name := email, models := [], overallHealth := .critical,
              subscriptionTier := jsStr tier, isForbidden := some true } := by
  intro o
  refine ⟨?_, ?_, ?_⟩
  · intro h
    simp [agFetchModelQuotas, MAX_RETRIES, agEndpointLoop, h]
  · intro h1 h2
    simp [agFetchModelQuotas, MAX_RETRIES, INITIAL_RETRY_DELAY_MS, agEndpointLoop, h1, h2]
  · intro email tier
    rfl

/-- Witness for C5: the oracle that answers 403 everywhere, and the oracle
that throws on the first attempt and answers 403 on the second. -/
theorem C5_forbidden_short_circuit_witness :
    (agFetchModelQuotas (fun _ _ => .status 403) =
      ({ models := [], isForbidden := true }, [.call 0 1]))
    ∧ (agFetchModelQuotas (fun _ a => if a = 1 then .exn else .status 403) =
      ({ models := [], isForbidden := true }, [.call 0 1, .sleepMs 1000, .call 0 2]))
    ∧ ∀ (email : String) (tier : Option String),
        agMkAccount email tier { models := [], isForbidden := true } =
          { id := email, name := email, models := [], overallHealth := .critical,
            subscriptionTier := jsStr tier, isForbidden := some true } :=
  ⟨(C5_forbidden_short_circuit (fun _ _ => .status 403)).1 rfl,
   (C5_forbidden_short_circuit (fun _ a => if a = 1 then .exn else .status 403)).2.1 rfl rfl,
   (C5_forbidden_short_circuit (fun _ _ => .status 403)).2.2⟩

theorem agFetchAccountsGo_getElem
    (oracle : Nat → Except Unit (Option String × AgQuotaResult)) :
    ∀ (sources : List AccountWithToken) (i j : Nat),
      (agFetchAccountsGo oracle i sources)[j]? =
        (sources[j]?).map (fun a => agAccountOutcome (oracle (i + j)) a) := by
  intro sources
  induction sources with
  | nil => intro i j; simp [agFetchAccountsGo]
  | cons a rest ih =>
    intro i j
    cases j with
    | zero => simp [agFetchAccountsGo]
    | succ j =>
      have harg : i + 1 + j = i + (j + 1) := by omega
      simp only [agFetchAccountsGo, List.getElem?_cons_succ, ih (i + 1) j, harg]

theorem agFetchAccountsGo_length
    (oracle : Nat → Except Unit (Option String × AgQuotaResult)) :
    ∀ (sources : List AccountWithToken) (i : Nat),
      (agFetchAccountsGo oracle i sources).length = sources.length := by
  intro sources
  induction sources with
  | nil => intro i; rfl
  | cons a rest ih => intro i; simp [agFetchAccountsGo, ih]

/-- C7: the Antigravity per-account loop records every resolved account
(the result list has the same length as the source list), the entry for
account `i` depends only on that account and its own fetch outcome (so one
account's failure cannot abort or change its siblings), and a failing
account is recorded with an empty model list and `unknown` health. -/
theorem C7_per_account_isolation :
    ∀ (sources : List AccountWithToken)
      (oracle : Nat → Except Unit (Option String × AgQuotaResult)),
      (agFetchAccounts sources oracle).length = sources.length
      ∧ (∀ i, (agFetchAccounts sources oracle)[i]? =
          (sources[i]?).map (fun a => agAccountOutcome (oracle i) a))
      ∧ (∀ a : AccountWithToken, agAccountOutcome (.error ()) a =
          { id := a.email, name := a.email, models := [], overallHealth := .unknown }) := by
  intro sources oracle
  refine ⟨agFetchAccountsGo_length oracle sources 0, ?_, fun a => rfl⟩
  intro i
  simpa using agFetchAccountsGo_getElem oracle sources 0 i

theorem agCalls_append (a b : List AgEvent) : agCalls (a ++ b) = agCalls a ++ agCalls b :=
  List.filterMap_append a b _

theorem agEndpointLoop_calls (o : Nat → AgCallOutcome) (e : Nat) :
    ∀ (fuel attempt : Nat), ∃ k, k ≤ fuel ∧
      agCalls (agEndpointLoop o e attempt fuel).2 =
        (List.range k).map (fun j => (e, attempt + j)) := by
  intro fuel
  induction fuel with
  | zero =>
    intro attempt
    exact ⟨0, Nat.le_refl 0, by simp [agEndpointLoop, agCalls]⟩
  | succ fuel ih =>
    intro attempt
    have hone : agCalls [AgEvent.call e attempt] =
        (List.range 1).map (fun j => (e, attempt + j)) := by
      simp [agCalls, List.range_succ]
    have hstep : ∀ t, agCalls (AgEvent.call e attempt ::
        AgEvent.sleepMs (INITIAL_RETRY_DELAY_MS * attempt) :: t) = (e, attempt) :: agCalls t := by
      intro t
      simp [agCalls]
    have hsucc : ∀ k, (e, attempt) :: (List.range k).map (fun j => (e, attempt + 1 + j)) =
        (List.range (k + 1)).map (fun j => (e, attempt + j)) := by
      intro k
      rw [List.range_succ_eq_map, List.map_cons, List.map_map]
      have hfun : ((fun j => (e, attempt + j)) ∘ Nat.succ) = (fun j => (e, attempt + 1 + j)) := by
        funext j
        simp only [Function.comp_apply, Prod.mk.injEq, true_and]
        omega
      rw [hfun]
      simp
    rcases ho : o attempt with _ | code | ms
    · by_cases ha : attempt < MAX_RETRIES
      · obtain ⟨k, hk, hcalls⟩ := ih (attempt + 1)
        refine ⟨k + 1, by omega, ?_⟩
        have : (agEndpointLoop o e attempt (fuel + 1)).2 = AgEvent.call e attempt ::
            AgEvent.sleepMs (INITIAL_RETRY_DELAY_MS * attempt) ::
              (agEndpointLoop o e (attempt + 1) fuel).2 := by
          simp [agEndpointLoop, ho, ha]
        rw [this, hstep, hcalls, hsucc]
      · refine ⟨1, by omega, ?_⟩
        have : (agEndpointLoop o e attempt (fuel + 1)).2 = [AgEvent.call e attempt] := by
          simp [agEndpointLoop, ho, ha]
        rw [this, hone]
    · by_cases hc : code = 403
      · refine ⟨1, by omega, ?_⟩
        have : (agEndpointLoop o e attempt (fuel + 1)).2 = [AgEvent.call e attempt] := by
          simp [agEndpointLoop, ho, hc]
        rw [this, hone]
      · by_cases ha : attempt < MAX_RETRIES
        · obtain ⟨k, hk, hcalls⟩ := ih (attempt + 1)
          refine ⟨k + 1, by omega, ?_⟩
          have : (agEndpointLoop o e attempt (fuel + 1)).2 = AgEvent.call e attempt ::
              AgEvent.sleepMs (INITIAL_RETRY_DELAY_MS * attempt) ::
                (agEndpointLoop o e (attempt + 1) fuel).2 := by
            simp [agEndpointLoop, ho, hc, ha]
          rw [this, hstep, hcalls, hsucc]
        · refine ⟨1, by omega, ?_⟩
          have : (agEndpointLoop o e attempt (fuel + 1)).2 = [AgEvent.call e attempt] := by
            simp [agEndpointLoop, ho, hc, ha]
          rw [this, hone]
    · refine ⟨1, by omega, ?_⟩
      have : (agEndpointLoop o e attempt (fuel + 1)).2 = [AgEvent.call e attempt] := by
        simp [agEndpointLoop, ho]
      rw [this, hone]

/-- C8: for any sequence of call outcomes, the attempts of
`fetchModelQuotas` are at most `MAX_RETRIES = 3` per endpoint, numbered
1, 2, … in order, and every attempt against the primary endpoint precedes
every attempt against the fallback endpoint (never interleaved); on an
all-transient-failure run the exact event trace is 3 primary attempts with
linearly increasing backoff sleeps (1000 ms, 2000 ms), then 3 fallback
attempts with the same backoff. -/
theorem C8_transient_retry_policy :
    (∀ o : Nat → Nat → AgCallOutcome, ∃ k0 k1, k0 ≤ MAX_RETRIES ∧ k1 ≤ MAX_RETRIES ∧
        agCalls (agFetchModelQuotas o).2 =
          (List.range k0).map (fun j => (0, 1 + j)) ++ (List.range k1).map (fun j => (1, 1 + j)))
    ∧ (agFetchModelQuotas (fun _ _ => .exn)).2 =
        [.call 0 1, .sleepMs 1000, .call 0 2, .sleepMs 2000, .call 0 3,
         .call 1 1, .sleepMs 1000, .call 1 2, .sleepMs 2000, .call 1 3] := by
  constructor
  · intro o
    obtain ⟨k0, hk0, h0⟩ := agEndpointLoop_calls (o 0) 0 MAX_RETRIES 1
    rcases hr0 : agEndpointLoop (o 0) 0 1 MAX_RETRIES with ⟨res0, t0⟩
    rw [hr0] at h0
    cases res0 with
    | some r =>
      refine ⟨k0, 0, hk0, by omega, ?_⟩
      simp only [agFetchModelQuotas, hr0]
      simpa using h0
    | none =>
      obtain ⟨k1, hk1, h1⟩ := agEndpointLoop_calls (o 1) 1 MAX_RETRIES 1
      rcases hr1 : agEndpointLoop (o 1) 1 1 MAX_RETRIES with ⟨res1, t1⟩
      rw [hr1] at h1
      refine ⟨k0, k1, hk0, hk1, ?_⟩
      cases res1 <;>
        simp only [agFetchModelQuotas, hr0, hr1] <;>
        rw [agCalls_append] <;>
        simp only at h0 h1 <;>
        rw [h0, h1]
  · decide

theorem foldl_push_eq_filterMap {α β : Type} (f : α → Option β) (g : List β → α → List β)
    (hg : ∀ acc a, g acc a = match f a with | some b => acc ++ [b] | none => acc) :
    ∀ (l : List α) (acc : List β), l.foldl g acc = acc ++ l.filterMap f := by
  intro l
  induction l with
  | nil => intro acc; simp
  | cons a rest ih =>
    intro acc
    rw [List.foldl_cons, hg, List.filterMap_cons]
    cases hfa : f a with
    | none =>
      simp only [hfa]
      rw [ih]
    | some b =>
      simp only [hfa]
      rw [ih]
      simp [List.append_assoc]

theorem agOpencodePass_eq (env : AgSourcesEnv) (acc : List AccountWithToken) :
    agOpencodePass env acc = acc ++ agOpencodePart env := by
  unfold agOpencodePass agOpencodePart
  refine foldl_push_eq_filterMap _ _ ?_ env.opencodeAccounts acc
  intro acc a
  cases env.refreshOutcome a.refreshToken <;> rfl

theorem agProxyFold_eq (env : AgSourcesEnv) (acc : List AccountWithToken) :
    env.proxyAccounts.foldl (agProxyStep env) acc = acc ++ agProxyPart env := by
  unfold agProxyPart
  refine foldl_push_eq_filterMap _ _ ?_ env.proxyAccounts acc
  intro acc a
  unfold agProxyStep
  cases a.source with
  | oauth =>
    by_cases h : (jsStr a.refreshToken).isSome = true
    · simp only [h, if_true]
      cases env.refreshOutcome ((jsStr a.refreshToken).getD "") <;> rfl
    · simp [h]
  | database =>
    by_cases h : (jsStr a.dbPath).isSome = true
    · simp only [h, if_true]
      cases env.dbToken ((jsStr a.dbPath).getD "") <;> rfl
    · simp [h]
  | manual => rfl

theorem agParts_not_ide (env : AgSourcesEnv) :
    ∀ a ∈ agOpencodePart env ++ agProxyPart env, a.source ≠ "antigravity-ide" := by
  intro a ha
  rcases List.mem_append.1 ha with h | h
  · obtain ⟨x, _, hmk⟩ := List.mem_filterMap.1 h
    rcases ho : env.refreshOutcome x.refreshToken with _ | tok <;> rw [ho] at hmk
    · simp at hmk
    · simp only [Option.map_some'] at hmk
      cases hmk
      simp
  · obtain ⟨x, _, hmk⟩ := List.mem_filterMap.1 h
    cases hs : x.source <;> rw [hs] at hmk
    · by_cases ht : (jsStr x.refreshToken).isSome = true
      · rw [if_pos ht] at hmk
        rcases ho : env.refreshOutcome ((jsStr x.refreshToken).getD "") with _ | tok <;>
          rw [ho] at hmk
        · simp at hmk
        · simp only [Option.map_some'] at hmk
          cases hmk
          simp
      · rw [if_neg ht] at hmk
        simp at hmk
    · by_cases ht : (jsStr x.dbPath).isSome = true
      · rw [if_pos ht] at hmk
        rcases ho : env.dbToken ((jsStr x.dbPath).getD "") with _ | tok <;> rw [ho] at hmk
        · simp at hmk
        · simp only [Option.map_some'] at hmk
          cases hmk
          simp
      · rw [if_neg ht] at hmk
        simp at hmk
    · simp at hmk

theorem agIdePass_eq (env : AgSourcesEnv) (l : List AccountWithToken)
    (hl : ∀ a ∈ l, a.source ≠ "antigravity-ide") :
    agIdePass env l = l ++ agIdePart env := by
  unfold agIdePass agIdePart
  cases hdb : env.dbToken env.idePath with
  | none => simp
  | some tok =>
    have hfind : l.find? (fun a => a.source = "antigravity-ide") = none := by
      rw [List.find?_eq_none]
      intro a ha
      simpa using hl a ha
    simp [hfind]

/-- C6 (amended): the Antigravity account list is the union — the ordered
concatenation — of the three independent source classes (opencode store,
proxy store, IDE database), with no de-duplication by account identity: an
identity described by two source classes appears once per class (see the
counterexample).  The only guard, against a second `antigravity-ide` entry,
never fires because no other source class produces that source tag. -/
theorem C6_union_of_source_classes :
    ∀ env : AgSourcesEnv,
      agGetAllAccountSources env =
        agOpencodePart env ++ agProxyPart env ++ agIdePart env := by
  intro env
  unfold agGetAllAccountSources
  rw [agOpencodePass_eq, List.nil_append, agProxyFold_eq,
    agIdePass_eq env _ (agParts_not_ide env)]

/-- Counterexample to C6 as stated: an account with the same identity
`dev@example.com` in both the opencode store and the proxy store (both
refreshing successfully) appears twice in the merged account list, not
once. -/
theorem C6_counterexample :
    (agGetAllAccountSources
        { opencodeAccounts := [{ email := some "dev@example.com", refreshToken := "rt-opencode" }]
          proxyAccounts :=
            [{ email := "dev@example.com", source := .oauth, refreshToken := some "rt-proxy" }]
          refreshOutcome := fun _ => some "tok"
          dbToken := fun _ => none
          idePath := "state.vscdb" }).map (fun a => a.email) =
      ["dev@example.com", "dev@example.com"]
    ∧ (agGetAllAccountSources
        { opencodeAccounts := [{ email := some "dev@example.com", refreshToken := "rt-opencode" }]
          proxyAccounts :=
            [{ email := "dev@example.com", source := .oauth, refreshToken := some "rt-proxy" }]
          refreshOutcome := fun _ => some "tok"
          dbToken := fun _ => none
          idePath := "state.vscdb" }).countP (fun a => a.email = "dev@example.com") = 2 := by
  refine ⟨by decide, by decide⟩

theorem gemFinish_trace (r : Except GemError (List QuotaBucket)) (t : GemTrace) :
    (gemFinish (r, t)).2 = t := by
  rcases r with e | bs
  · rcases e with _ | msg <;> rfl
  · rfl

theorem gemFetchSequence_bounds (env : GemEnv) (t : GemTrace) (msg : String) :
    (gemFetchSequence env t msg).2.projectIdCalls = t.projectIdCalls + 1
    ∧ (gemFetchSequence env t msg).2.quotaCalls ≤ t.quotaCalls + 1
    ∧ (gemFetchSequence env t msg).2.refreshes = t.refreshes := by
  unfold gemFetchSequence
  rcases env.projectIdCall t.projectIdCalls with _ | _ | _ | q
  · simp [gemGetProjectId]
  · simp [gemGetProjectId]
  · simp [gemGetProjectId]
  · rcases hjq : jsStr q with _ | s
    · simp [gemGetProjectId, hjq]
    · rcases env.quotaCall t.quotaCalls with _ | _ | _ | bs <;>
        simp [gemGetProjectId, gemGetQuota, hjq]

theorem gemExecuteWithRetry_bounds (env : GemEnv) (creds : GemCreds) (i : Nat) :
    (gemExecuteWithRetry env creds i).2.projectIdCalls ≤ 2
    ∧ (gemExecuteWithRetry env creds i).2.quotaCalls ≤ 2
    ∧ (gemExecuteWithRetry env creds i).2.refreshes ≤ i + 1 := by
  unfold gemExecuteWithRetry
  have h1 := gemFetchSequence_bounds env ⟨i, 0, 0⟩ "Failed to get project ID"
  rcases hfs : gemFetchSequence env ⟨i, 0, 0⟩ "Failed to get project ID" with ⟨r, t⟩
  rw [hfs] at h1
  simp only at h1
  rcases r with e | bs
  · rcases e with _ | msg
    · rcases hR : env.refreshHttp i with _ | resp
      · simp only [gemRefreshToken]
        omega
      · simp only [gemRefreshToken]
        have h2 := gemFetchSequence_bounds env { t with refreshes := t.refreshes + 1 }
          "Failed to get project ID after retry"
        rcases hfs2 : gemFetchSequence env { t with refreshes := t.refreshes + 1 }
            "Failed to get project ID after retry" with ⟨r2, t2⟩
        rw [hfs2] at h2
        simp only at h2 ⊢
        omega
    · simp only
      omega
  · simp only
    omega

/-- C3 (amended): for the Gemini CLI provider, an auth failure (401/403) of
the project-id or quota call triggers exactly one token refresh followed by
one retry of the project-id + quota sequence, and if the retry also fails
authentication the result is `auth_expired` with no third attempt — in
every run at most 2 project-id calls, 2 quota calls and 2 refreshes happen.
The other providers do not follow this rule (see the counterexample). -/
theorem C3_auth_retry_once :
    (∀ env : GemEnv,
       (gemFetchQuota env).2.projectIdCalls ≤ 2 ∧ (gemFetchQuota env).2.quotaCalls ≤ 2
       ∧ (gemFetchQuota env).2.refreshes ≤ 2)
    ∧ (∀ (env : GemEnv) (creds : GemCreds) (resp : TokenResponse),
       env.apiKeyMode = false → env.creds = some creds →
       gemNeedsRefresh creds env.now = false → env.refreshHttp 0 = some resp →
       ((env.projectIdCall 0 = .authFail → env.projectIdCall 1 = .authFail →
           gemFetchQuota env =
             (createAuthExpiredResult "Run 'gemini' to re-authenticate", ⟨1, 2, 0⟩))
        ∧ (env.projectIdCall 0 = .ok (some "project") → env.quotaCall 0 = .authFail →
           env.projectIdCall 1 = .ok (some "project") → env.quotaCall 1 = .authFail →
           gemFetchQuota env =
             (createAuthExpiredResult "Run 'gemini' to re-authenticate", ⟨1, 2, 2⟩)))) := by
  constructor
  · intro env
    unfold gemFetchQuota
    by_cases hA : env.apiKeyMode = true
    · rw [if_pos hA]
      simp
    · rw [if_neg hA]
      rcases hC : env.creds with _ | creds
      · simp [createNotConfiguredResult]
      · dsimp only
        by_cases hN : gemNeedsRefresh creds env.now = true
        · rw [if_pos hN]
          rcases hR : env.refreshHttp 0 with _ | resp
          · simp [gemRefreshToken, createAuthExpiredResult]
          · simp only [gemRefreshToken]
            have hb := gemExecuteWithRetry_bounds env creds 1
            rcases hE : gemExecuteWithRetry env creds 1 with ⟨r, t⟩
            rw [hE] at hb
            simp only at hb
            rw [gemFinish_trace]
            exact ⟨hb.1, hb.2.1, by omega⟩
        · rw [if_neg hN]
          have hb := gemExecuteWithRetry_bounds env creds 0
          rcases hE : gemExecuteWithRetry env creds 0 with ⟨r, t⟩
          rw [hE] at hb
          simp only at hb
          rw [gemFinish_trace]
          exact ⟨hb.1, hb.2.1, by omega⟩
  · intro env creds resp hA hC hN hR
    constructor
    · intro h0 h1
      simp [gemFetchQuota, gemExecuteWithRetry, gemFetchSequence, gemGetProjectId,
        gemRefreshToken, gemFinish, hA, hC, hN, hR, h0, h1]
    · intro h0 hq0 h1 hq1
      simp [gemFetchQuota, gemExecuteWithRetry, gemFetchSequence, gemGetProjectId,
        gemGetQuota, gemRefreshToken, gemFinish, jsStr, hA, hC, hN, hR, h0, hq0, h1, hq1]

/-- Witness for C3 at a concrete environment: a valid-expiry credential
whose project-id call answers 401 twice; the refresh succeeds once and the
retry's failure yields `auth_expired` after exactly 2 project-id calls, 1
refresh and 0 quota calls. -/
theorem C3_auth_retry_once_witness :
    gemFetchQuota
      { apiKeyMode := false
        creds := some { access_token := "a", refresh_token := "r", expiry_date := some 999 }
        now := 0
        refreshHttp := fun _ => some { access_token := "t2", expires_in := 3600 }
        projectIdCall := fun _ => .authFail
        quotaCall := fun _ => .authFail } =
      (createAuthExpiredResult "Run 'gemini' to re-authenticate", ⟨1, 2, 0⟩) :=
  (C3_auth_retry_once.2
    { apiKeyMode := false
      creds := some { access_token := "a", refresh_token := "r", expiry_date := some 999 }
      now := 0
      refreshHttp := fun _ => some { access_token := "t2", expires_in := 3600 }
      projectIdCall := fun _ => .authFail
      quotaCall := fun _ => .authFail }
    { access_token := "a", refresh_token := "r", expiry_date := some 999 }
    { access_token := "t2", expires_in := 3600 }
    rfl rfl rfl rfl).1 rfl rfl

/-- Counterexample to C3 as stated (for every provider): the Antigravity
quota call, failing with HTTP 401 on every attempt, is attempted six times
(three per endpoint) with no token refresh and no `auth_expired` result —
far from "exactly one refresh and one retry, no third attempt". -/
theorem C3_counterexample :
    agCalls (agFetchModelQuotas (fun _ _ => .status 401)).2 =
      [(0, 1), (0, 2), (0, 3), (1, 1), (1, 2), (1, 3)]
    ∧ (agFetchModelQuotas (fun _ _ => .status 401)).1 =
      { models := [], isForbidden := false } := by
  refine ⟨by decide, by decide⟩

/-- C9 (amended): for the Gemini CLI provider, a found credential whose
token refresh fails yields status `auth_expired` — both when the stored
token is already expired (or has no expiry) and the pre-fetch refresh
fails, and when a mid-fetch auth failure's refresh fails.  The Antigravity
provider instead drops accounts whose refresh fails (see the
counterexample). -/
theorem C9_auth_expired_on_refresh_failure :
    (∀ (env : GemEnv) (creds : GemCreds),
       env.apiKeyMode = false → env.creds = some creds →
       gemNeedsRefresh creds env.now = true → env.refreshHttp 0 = none →
       gemFetchQuota env =
         (createAuthExpiredResult "Run 'gemini' to re-authenticate", ⟨1, 0, 0⟩))
    ∧ (∀ (env : GemEnv) (creds : GemCreds),
       env.apiKeyMode = false → env.creds = some creds →
       gemNeedsRefresh creds env.now = false →
       env.projectIdCall 0 = .authFail → env.refreshHttp 0 = none →
       gemFetchQuota env =
         (createAuthExpiredResult "Run 'gemini' to re-authenticate", ⟨1, 1, 0⟩)) := by
  constructor
  · intro env creds hA hC hN hR
    simp [gemFetchQuota, gemRefreshToken, hA, hC, hN, hR]
  · intro env creds hA hC hN h0 hR
    simp [gemFetchQuota, gemExecuteWithRetry, gemFetchSequence, gemGetProjectId,
      gemRefreshToken, gemFinish, hA, hC, hN, h0, hR]

/-- Witness for C9 at a concrete environment: a credential file with no
`expiry_date` and a failing token endpoint. -/
theorem C9_auth_expired_on_refresh_failure_witness :
    gemFetchQuota
      { apiKeyMode := false
        creds := some { access_token := "a", refresh_token := "r" }
        now := 0
        refreshHttp := fun _ => none
        projectIdCall := fun _ => .authFail
        quotaCall := fun _ => .authFail } =
      (createAuthExpiredResult "Run 'gemini' to re-authenticate", ⟨1, 0, 0⟩) :=
  C9_auth_expired_on_refresh_failure.1
    { apiKeyMode := false
      creds := some { access_token := "a", refresh_token := "r" }
      now := 0
      refreshHttp := fun _ => none
      projectIdCall := fun _ => .authFail
      quotaCall := fun _ => .authFail }
    { access_token := "a", refresh_token := "r" }
    rfl rfl rfl rfl

/-- Counterexample to C9 as stated (for every provider): for Antigravity, a
credential record is found (one opencode account with a refresh token) but
its token refresh fails — the account is silently dropped, the merged
source list is empty, and the provider result is `not_configured`, not
`auth_expired`. -/
theorem C9_counterexample :
    (agGetAllAccountSources
        { opencodeAccounts := [{ email := some "dev@example.com", refreshToken := "rt" }]
          proxyAccounts := []
          refreshOutcome := fun _ => none
          dbToken := fun _ => none
          idePath := "state.vscdb" }) = []
    ∧ (agFetchQuota
        { opencodeAccounts := [{ email := some "dev@example.com", refreshToken := "rt" }]
          proxyAccounts := []
          refreshOutcome := fun _ => none
          dbToken := fun _ => none
          idePath := "state.vscdb" }
        (fun _ => .ok (none, { models := [], isForbidden := false }))).status =
      ProviderStatus.not_configured
    ∧ agFetchQuota
        { opencodeAccounts := [{ email := some "dev@example.com", refreshToken := "rt" }]
          proxyAccounts := []
          refreshOutcome := fun _ => none
          dbToken := fun _ => none
          idePath := "state.vscdb" }
        (fun _ => .ok (none, { models := [], isForbidden := false })) =
      createNotConfiguredResult "Run 'opencode auth login' or install Antigravity IDE" := by
  refine ⟨by decide, by decide, by decide⟩

/-- C10 (amended): a successful Gemini CLI token refresh persists the new
access token and its computed expiry back to the original credential file
(`~/.gemini/oauth_creds.json`) and writes nothing else; a failed refresh
writes nothing.  The Antigravity refresh never writes back at all (see the
counterexample), and API-key-style sources have no refresh machinery. -/
theorem C10_refresh_persistence :
    (∀ (creds : GemCreds) (resp : TokenResponse) (now : ℤ) (fs : String → Option GemCreds),
       (gemRefreshToken creds (some resp) now).1 = some resp.access_token
       ∧ applyWrites (gemRefreshToken creds (some resp) now).2 fs GEMINI_CRED_PATH =
           some { creds with access_token := resp.access_token,
                             expiry_date := some (now + resp.expires_in * 1000) }
       ∧ ∀ p, p ≠ GEMINI_CRED_PATH →
           applyWrites (gemRefreshToken creds (some resp) now).2 fs p = fs p)
    ∧ (∀ (creds : GemCreds) (now : ℤ) (fs : String → Option GemCreds) (p : String),
       gemRefreshToken creds none now = (none, [])
       ∧ applyWrites (gemRefreshToken creds none now).2 fs p = fs p) := by
  constructor
  · intro creds resp now fs
    refine ⟨rfl, ?_, ?_⟩
    · simp [gemRefreshToken, applyWrites]
    · intro p hp
      simp [gemRefreshToken, applyWrites, hp]
  · intro creds now fs p
    exact ⟨rfl, rfl⟩

/-- Witness for C10 at a concrete input: refreshing with a token-endpoint
response `{access_token := "t2", expires_in := 3600}` at time 0 writes the
updated credentials to the credential path and leaves another path
untouched. -/
theorem C10_refresh_persistence_witness :
    ((gemRefreshToken { access_token := "a", refresh_token := "r" }
        (some { access_token := "t2", expires_in := 3600 }) 0).1 =
      some ({ access_token := "t2", expires_in := 3600 } : TokenResponse).access_token)
    ∧ (applyWrites (gemRefreshToken { access_token := "a", refresh_token := "r" }
          (some { access_token := "t2", expires_in := 3600 }) 0).2 (fun _ => none)
        GEMINI_CRED_PATH =
      some { access_token := "t2", refresh_token := "r", expiry_date := some 3600000 }) :=
  ⟨(C10_refresh_persistence.1 { access_token := "a", refresh_token := "r" }
      { access_token := "t2", expires_in := 3600 } 0 (fun _ => none)).1,
   (C10_refresh_persistence.1 { access_token := "a", refresh_token := "r" }
      { access_token := "t2", expires_in := 3600 } 0 (fun _ => none)).2.1⟩

/-- Counterexample to C10 as stated: the Antigravity token refresh, whose
refresh tokens come from the mutable opencode / proxy credential files,
succeeds yet performs no write-back at all. -/
theorem C10_counterexample :
    (agRefreshToken (some "new-access-token")).1 = some "new-access-token"
    ∧ (agRefreshToken (some "new-access-token")).2 = [] := by
  refine ⟨rfl, rfl⟩

end

end UAQ
